import Mathlib

/-!
Verification development for the dynamic shell-completion bridge of
clap_complete: a shallow embedding of src/clap_complete/src/dynamic/mod.rs,
bash.rs and zsh.rs, together with theorems settling the specified
properties of the bridge.

Shell code stored in string literals below writes a literal brace as an
x7b or x7d escape and a literal apostrophe as an x27 escape; the decoded
string contents are byte-for-byte the templates of the source.
-/

set_option maxRecDepth 20000

namespace ClapDynamic

/-- Completion type: enum CompType in bash.rs, the reason the shell invoked
completion. -/
inductive CompType where
  | Normal
  | Successive
  | Alternatives
  | Unmodified
  | Menu
deriving DecidableEq

/-- The list returned by value_variants in the ArgEnum impl of CompType,
in source order. -/
def CompType.valueVariants : List CompType :=
  [.Normal, .Successive, .Alternatives, .Unmodified, .Menu]

/-- The numeric code string each variant advertises through
to_possible_value in bash.rs. -/
def CompType.toValue : CompType → String
  | .Normal => "9"
  | .Successive => "63"
  | .Alternatives => "33"
  | .Unmodified => "64"
  | .Menu => "37"

/-- The lowercase textual alias each variant advertises through
to_possible_value in bash.rs. -/
def CompType.toAlias : CompType → String
  | .Normal => "normal"
  | .Successive => "successive"
  | .Alternatives => "alternatives"
  | .Unmodified => "unmodified"
  | .Menu => "menu"

/-- The Default impl for CompType in bash.rs. -/
def CompType.default : CompType := .Normal

/-- Modelled from the spec: clap's value parsing for an ArgEnum (the parser
is clap code not under src/) accepts, for each variant of value_variants,
its possible value or its alias, and reports a value-not-recognized error
otherwise. -/
def CompType.fromStr (s : String) : Option CompType :=
  CompType.valueVariants.find? (fun v => v.toValue == s || v.toAlias == s)

/-- struct CompleteArgs in bash.rs: the decoded request fields.  index and
comp_type are declared required but typed optional in the source; space and
no_space are the two flag booleans; comp_words is the raw trailing word
list. -/
structure CompleteArgs where
  index : Option Nat
  ifs : Option String
  comp_type : Option CompType
  space : Bool
  no_space : Bool
  comp_words : List String

/-- Failure cases of decoding the bridge's own invocation. -/
inductive DecodeError where
  | conflictingSpaceFlags
  | missingRequired
  | valueNotRecognized
deriving DecidableEq

/-- Modelled from the spec: clap's parser (clap code not under src/) decodes
the CompleteArgs declaration: the no_space flag carries conflicts_with =
"space", so an invocation with both flags fails; index and comp_type are
required; ifs is optional; the trailing words are taken raw. -/
def decodeCompleteArgs (indexArg : Option Nat) (ifsArg : Option String)
    (typeArg : Option String) (spaceFlag noSpaceFlag : Bool)
    (words : List String) : Except DecodeError CompleteArgs :=
  if spaceFlag && noSpaceFlag then .error .conflictingSpaceFlags
  else
    match indexArg, typeArg with
    | some i, some t =>
      match CompType.fromStr t with
      | some ct => .ok ⟨some i, ifsArg, some ct, spaceFlag, noSpaceFlag, words⟩
      | none => .error .valueNotRecognized
    | _, _ => .error .missingRequired

/-- The serialization loop of bash::complete, bash.rs lines 235 to 240: for
the candidate at position i, first write the separator unless i is 0, then
write the candidate's text. -/
def encodeGo (sep : String) : Nat → List String → String
  | _, [] => ""
  | i, c :: rest => (if i != 0 then sep else "") ++ c ++ encodeGo sep (i + 1) rest

/-- Contents of buf after the loop in bash::complete: the candidates joined
by the negotiated separator, args.ifs defaulting to a newline. -/
def encodeCandidates (ifs : Option String) (completions : List String) : String :=
  encodeGo (ifs.getD "\n") 0 completions

/-- Result of one bash::complete invocation.  panicked models a Rust panic
(the unreachable branch and the Option unwrap in the space match), failed
models a propagated clap error from the candidate generator, and ok carries
the bytes written to standard output. -/
inductive Outcome where
  | panicked
  | failed
  | ok (output : String)
deriving DecidableEq

/-- The external candidate generator super::complete::get, repository code
not under src/; the spec keeps it opaque, so it is a parameter taking the
raw word list, the cursor index and the optional working directory. -/
abbrev Completer := List String → Nat → Option String → Except Unit (List String)

/-- bash::complete, bash.rs lines 217 to 244.  The match on the pair
(space, no_space): (true, true) hits the unreachable panic; the (false,
false) arm of the source yields None, which the source immediately unwraps,
also a panic; the two single-flag arms proceed.  On the surviving path the
candidate generator receives comp_words cloned as-is together with the
index and the working directory, and its candidates are serialized into the
output buffer. -/
def complete (completer : Completer) (cwd : Option String)
    (args : CompleteArgs) : Outcome :=
  let index := args.index.getD 0
  let _comp_type := args.comp_type.getD CompType.default
  match args.space, args.no_space with
  | true, true => .panicked
  | false, false => .panicked
  | _, _ =>
    match completer args.comp_words index cwd with
    | .error _ => .failed
    | .ok completions => .ok (encodeCandidates args.ifs completions)

/-- Modelled from the spec: CompleteCommand::run exits 0 after a successful
try_run; a clap error exits non-zero via Error::exit (clap code not under
src/; the spec: non-zero on any decode or collaborator failure); a Rust
panic aborts the process with exit code 101. -/
def exitCode : Outcome → Nat
  | .ok _ => 0
  | .failed => 2
  | .panicked => 101

/-- enum CompletionsShell in mod.rs. -/
inductive CompletionsShell where
  | Bash
  | Zsh
deriving DecidableEq

namespace bash

/-- bash::file_name in bash.rs: the recommended file name for the
registration code. -/
def file_name (name : String) : String := name ++ ".bash"

/-- enum Behavior in bash.rs. -/
inductive Behavior where
  | Minimal
  | Readline
  | Custom (c : String)

/-- The Default impl for Behavior in bash.rs. -/
def Behavior.default : Behavior := .Readline

end bash

namespace zsh

/-- zsh::file_name in zsh.rs: the recommended file name for the
registration code. -/
def file_name (name : String) : String := name ++ ".zsh"

end zsh

/-- Destination chosen by dynamic::register in mod.rs. -/
inductive Dest where
  | stdout
  | file (path : String)
deriving DecidableEq

/-- dynamic::register in mod.rs, lines 82 to 106, as a destination choice:
write_stdout holds when out_path is absent or equals "-"; otherwise the
path is unwrapped (none on that branch would be the unreachable unwrap), a
directory receives the dialect's file_name joined onto it, and any other
path is used verbatim.  isDir stands for the file-system is_dir test. -/
def registerDest (shell : CompletionsShell) (name : String)
    (outPath : Option String) (isDir : String → Bool) : Option Dest :=
  let writeStdout := match outPath with
    | some p => p == "-"
    | none => true
  if writeStdout then some .stdout
  else
    match outPath with
    | none => none
    | some p =>
      if isDir p then
        let filename := match shell with
          | .Bash => bash.file_name name
          | .Zsh => zsh.file_name name
        some (.file (p ++ "/" ++ filename))
      else some (.file p)

/-- Strips pat off the front of a character list, returning the rest when
it matches. -/
def stripPre : List Char → List Char → Option (List Char)
  | [], l => some l
  | _ :: _, [] => none
  | p :: ps, c :: cs => if p == c then stripPre ps cs else none

/-- Fuel-driven replacement of every non-overlapping occurrence of pat by
rep, scanning left to right; the fuel is a list at least as long as the
input, so it never runs out. -/
def replaceGo (pat rep : List Char) : List Char → List Char → List Char
  | _, [] => []
  | [], l => l
  | _ :: fuel, c :: cs =>
    match stripPre pat (c :: cs) with
    | some rest => rep ++ replaceGo pat rep fuel rest
    | none => c :: replaceGo pat rep fuel cs

/-- str::replace of Rust on strings: replace every non-overlapping
occurrence of pat in s by rep, scanning left to right. -/
def replaceStr (s pat rep : String) : String :=
  ⟨replaceGo pat.toList rep.toList s.toList s.toList⟩

/-- Whether pat occurs at the start of a character list. -/
def listIsPre : List Char → List Char → Bool
  | [], _ => true
  | _ :: _, [] => false
  | p :: ps, c :: cs => p == c && listIsPre ps cs

/-- Whether sub occurs anywhere inside a character list. -/
def listHasSub (sub : List Char) : List Char → Bool
  | [] => sub.isEmpty
  | c :: rest => listIsPre sub (c :: rest) || listHasSub sub rest

/-- Whether sub occurs as a contiguous substring of s. -/
def strHasSub (s sub : String) : Bool := listHasSub sub.toList s.toList

namespace bash

/-- The raw registration-script template of bash::register, bash.rs lines
169 to 205, byte-for-byte (braces as x7b and x7d escapes, apostrophes as
x27 escapes). -/
def scriptTemplate : String := "
__clap_complete_NAME_debug() \x7b
    local file=\"$BASH_COMP_DEBUG_FILE\"
    if [[ -n $\x7bfile\x7d ]]; then
        echo \"$*\" >> \"$\x7bfile\x7d\"
    fi
\x7d

_clap_complete_NAME() \x7b
    local compCmd
    local IFS=$\x27\\013\x27
    local SUPPRESS_SPACE=0
    if compopt +o nospace 2> /dev/null; then
        SUPPRESS_SPACE=1
    fi
    if [[ $\x7bSUPPRESS_SPACE\x7d == 1 ]]; then
        SPACE_ARG=\"--no-space\"
    else
        SPACE_ARG=\"--space\"
    fi

    compCmd=\"COMPLETER complete --index $\x7bCOMP_CWORD\x7d --type $\x7bCOMP_TYPE\x7d $\x7bSPACE_ARG\x7d --ifs=$IFS -- $\x7bCOMP_WORDS[@]\x7d\"

    __clap_complete_NAME_debug \"Calling completion command: eval $\x7bcompCmd\x7d\"

    COMPREPLY=( $(\"COMPLETER\" complete --index $\x7bCOMP_CWORD\x7d --type $\x7bCOMP_TYPE\x7d $\x7bSPACE_ARG\x7d --ifs=\"$IFS\" -- \"$\x7bCOMP_WORDS[@]\x7d\") )
    __clap_complete_NAME_debug \"Completion command output: $\x7bCOMPREPLY\x7d\"

    if [[ $? != 0 ]]; then
        unset COMPREPLY
    elif [[ $SUPPRESS_SPACE == 1 ]] && [[ \"$\x7bCOMPREPLY-\x7d\" =~ [=/:]$ ]]; then
        compopt -o nospace
    fi
\x7d

complete OPTIONS -F _clap_complete_NAME EXECUTABLES
"

/-- bash::register, bash.rs lines 139 to 214, as the bytes written to buf:
the name has every hyphen replaced by an underscore, the upper-case copy is
its ASCII uppercase, the executables are quoted and joined by single
spaces, the behavior selects the completion options, and the template is
rendered by replacing NAME, EXECUTABLES, OPTIONS, COMPLETER and UPPER in
that order; writeln appends one newline.  quote stands for shlex::quote, a
third-party crate, so it is a parameter. -/
def register (quote : String → String) (name : String)
    (executables : List String) (completer : String)
    (behavior : Behavior) : String :=
  let escaped_name := replaceStr name "-" "_"
  let upper_name := escaped_name.toUpper
  let execs := String.intercalate " " (executables.map quote)
  let options := match behavior with
    | .Minimal => "-o nospace -o bashdefault"
    | .Readline => "-o nospace -o default -o bashdefault"
    | .Custom c => c
  let completerQ := quote completer
  let script := replaceStr (replaceStr (replaceStr (replaceStr (replaceStr
    scriptTemplate "NAME" escaped_name) "EXECUTABLES" execs) "OPTIONS" options)
    "COMPLETER" completerQ) "UPPER" upper_name
  script ++ "\n"

end bash

namespace zsh

/-- The raw registration-script template of zsh::register, zsh.rs lines 36
to 121, byte-for-byte (braces as x7b and x7d escapes, apostrophes as x27
escapes). -/
def scriptTemplate : String := "
#compdef _clap_complete_NAME NAME
# zsh completion for NAME
__clap_complete_NAME_debug() \x7b
    local file=\"$BASH_COMP_DEBUG_FILE\"
    if [[ -n $\x7bfile\x7d ]]; then
        echo \"$*\" >> \"$\x7bfile\x7d\"
    fi
\x7d

_clap_complete_NAME() \x7b
    local lastParam lastChar flagPrefix compCmd compResult compLine lastComp
    local -a completions

    __clap_complete_NAME_debug \"\\n========= starting completion logic ==========\"
    __clap_complete_NAME_debug \"CURRENT: $\x7bCURRENT\x7d, words[*]: $\x7bwords[*]\x7d\"

    # The user could have moved the cursor backwards on the command-line.
    # We need to trigger completion from the $CURRENT location, so we need
    # to truncate the command-line ($words) up to the $CURRENT location.
    # (We cannot use $CURSOR as its value does not work when a command is an alias.)
    words=(\"$\x7b=words[1,CURRENT]\x7d\")
    __clap_complete_NAME_debug \"Truncated words[*]: $\x7bwords[*]\x7d,\"
    lastParam=$\x7bwords[-1]\x7d
    lastChar=$\x7blastParam[-1]\x7d
    __clap_complete_NAME_debug \"lastParam: $\x7blastParam\x7d, lastChar: $\x7blastChar\x7d\"

    # For zsh, when completing a flag with an = (e.g., NAME -n=<TAB>)
    # completions must be prefixed with the flag
    setopt local_options BASH_REMATCH
    if [[ \"$\x7blastParam\x7d\" =~ \x27-.+=\x27 ]]; then
        # We are dealing with a flag with an =
        flagPrefix=\"-P $\x7bBASH_REMATCH\x7d\"
    fi

    # Prepare the command to obtain completions
    compCmd=\"COMPLETER complete --type 63 --index 1 --no-space -- $\x7bwords[1,-1]\x7d\"

    __clap_complete_NAME_debug \"Calling completion command: eval $\x7bcompCmd\x7d\"

    # Use eval to handle any environment variables and such
    compResult=$(eval $\x7bcompCmd\x7d 2>/dev/null)
    __clap_complete_NAME_debug \"Completion command output: $\x7bcompResult\x7d\"

    __clap_complete_NAME_debug \"completions: $\x7bcompResult\x7d\"
    __clap_complete_NAME_debug \"flagPrefix: $\x7bflagPrefix\x7d\"

    while IFS=\x27\\n\x27 read -r compLine; do
        if [ -n \"$compLine\" ]; then
            # If requested, completions are returned with a description.
            # The description is preceded by a TAB character.
            # For zsh\x27s _describe, we need to use a : instead of a TAB.
            # We first need to escape any : as part of the completion itself.
            compLine=$\x7bcompLine//:/\\\\:\x7d
            local tab=\"$(printf \x27\\t\x27)\"
            compLine=$\x7bcompLine//$tab/:\x7d
            __clap_complete_NAME_debug \"Adding completion: $\x7bcompLine\x7d\"
            completions+=$\x7bcompLine\x7d
            lastComp=$compLine
        fi
    done < <(printf \"%%s\\n\" \"$\x7bcompResult[@]\x7d\")

    __clap_complete_NAME_debug \"Calling _describe\"
    if eval _describe \"completions\" completions; then
        __clap_complete_NAME_debug \"_describe found some completions\"
        # Return the success of having called _describe
        return 0
    else
        __clap_complete_NAME_debug \"_describe did not find completions.\"
        __clap_complete_NAME_debug \"Checking if we should do file completion.\"
        # TODO: Allow customizing behavior here

        # Perform file completion
        __clap_complete_NAME_debug \"Activating file completion\"

        # We must return the result of this command, so it must be the
        # last command, or else we must store its result to return it.
        _arguments \x27*:filename:_files\x27\" $\x7bflagPrefix\x7d\"
    fi
\x7d

# don\x27t run the completion function when being source-ed or eval-ed
if [ \"$funcstack[1]\" = \"_NAME\" ]; then
    _NAME
fi
"

/-- zsh::register, zsh.rs lines 11 to 129, as the bytes written to buf:
same rendering pipeline as the bash dialect but with no behavior options;
the template is rendered by replacing NAME, EXECUTABLES, COMPLETER and
UPPER in that order; writeln appends one newline.  quote stands for
shlex::quote, a third-party crate, so it is a parameter. -/
def register (quote : String → String) (name : String)
    (executables : List String) (completer : String) : String :=
  let escaped_name := replaceStr name "-" "_"
  let upper_name := escaped_name.toUpper
  let execs := String.intercalate " " (executables.map quote)
  let completerQ := quote completer
  let script := replaceStr (replaceStr (replaceStr (replaceStr
    scriptTemplate "NAME" escaped_name) "EXECUTABLES" execs)
    "COMPLETER" completerQ) "UPPER" upper_name
  script ++ "\n"

end zsh

/-! Helper lemmas about the serialization loop. -/

theorem encodeGo_pos (sep : String) :
    ∀ (cs : List String) (i j : Nat), i ≠ 0 → j ≠ 0 →
      encodeGo sep i cs = encodeGo sep j cs := by
  intro cs
  induction cs with
  | nil => intro i j _ _; rfl
  | cons c rest ih =>
    intro i j hi hj
    have hi2 : (i != 0) = true := by simpa using hi
    have hj2 : (j != 0) = true := by simpa using hj
    simp only [encodeGo, hi2, hj2, if_true]
    rw [ih (i + 1) (j + 1) (Nat.succ_ne_zero i) (Nat.succ_ne_zero j)]

theorem intercalate_go_eq (sep : String) :
    ∀ (as : List String) (acc : String),
      String.intercalate.go acc sep as = acc ++ encodeGo sep 1 as := by
  intro as
  induction as with
  | nil => intro acc; simp [String.intercalate.go, encodeGo]
  | cons a rest ih =>
    intro acc
    rw [String.intercalate.go, ih]
    have h1 : encodeGo sep 1 (a :: rest) = sep ++ a ++ encodeGo sep 1 rest := by
      have ht : ((1 : Nat) != 0) = true := by decide
      simp only [encodeGo, ht, if_true]
      rw [encodeGo_pos sep rest 2 1 (by decide) (by decide)]
    rw [h1]
    simp [String.append_assoc]

theorem encode_eq_intercalate (ifs : Option String) (cs : List String) :
    encodeCandidates ifs cs = String.intercalate (ifs.getD "\n") cs := by
  cases cs with
  | nil => rfl
  | cons a rest =>
    have h2 : String.intercalate (ifs.getD "\n") (a :: rest)
        = String.intercalate.go a (ifs.getD "\n") rest := rfl
    rw [h2, intercalate_go_eq]
    show (if ((0 : Nat) != 0) = true then ifs.getD "\n" else "") ++ a
        ++ encodeGo (ifs.getD "\n") 1 rest = a ++ encodeGo (ifs.getD "\n") 1 rest
    simp

theorem complete_run_eq (completer : Completer) (cwd : Option String)
    (args : CompleteArgs) (h : args.space ≠ args.no_space) :
    complete completer cwd args =
      match completer args.comp_words (args.index.getD 0) cwd with
      | .error _ => .failed
      | .ok cs => .ok (encodeCandidates args.ifs cs) := by
  obtain ⟨i, f, t, s, n, w⟩ := args
  cases s <;> cases n <;> first | rfl | (exact absurd rfl h)

/-- C1: when the space flag and the no-space flag are both present, decoding
fails with the conflict error rather than silently picking one value, and
for every candidate generator bash::complete's both-set branch panics at
the unreachable arm, so such a request is never delivered to the
candidate-generation path. -/
theorem c1_both_space_flags_rejected :
    (∀ (i : Option Nat) (f : Option String) (t : Option String) (w : List String),
      decodeCompleteArgs i f t true true w = .error .conflictingSpaceFlags) ∧
    (∀ (completer : Completer) (cwd : Option String) (args : CompleteArgs),
      args.space = true → args.no_space = true →
      complete completer cwd args = .panicked) := by
  constructor
  · intro i f t w
    rfl
  · intro completer cwd args hs hn
    obtain ⟨i, f, t, s, n, w⟩ := args
    cases s
    · exact Bool.noConfusion hs
    · cases n
      · exact Bool.noConfusion hn
      · rfl

/-- Witness for c1_both_space_flags_rejected at a concrete conflicting
invocation. -/
theorem c1_both_space_flags_rejected_witness :
    decodeCompleteArgs (some 1) none (some "9") true true ["prog"]
        = .error .conflictingSpaceFlags ∧
    complete (fun _ _ _ => .ok ["x"]) none
        ⟨some 1, none, some .Normal, true, true, ["prog"]⟩ = .panicked :=
  ⟨c1_both_space_flags_rejected.1 (some 1) none (some "9") ["prog"],
   c1_both_space_flags_rejected.2 (fun _ _ _ => .ok ["x"]) none
     ⟨some 1, none, some .Normal, true, true, ["prog"]⟩ rfl rfl⟩

/-- C2: contrary to the claim, the unset case is not processed normally.
With neither the space flag nor the no-space flag present, bash::complete
builds None for the tri-state and immediately unwraps it, a panic, before
ever invoking the candidate generator: here a concrete such request whose
generator would have succeeded ends panicked. -/
theorem c2_unset_space_panics :
    complete (fun _ _ _ => .ok ["a"]) none
      ⟨some 1, none, some .Normal, false, false, ["prog", ""]⟩ = .panicked := rfl

/-- C3: bash::complete serializes candidates joined by the negotiated
separator, args.ifs defaulting to a newline, between consecutive entries
and with no trailing separator: the buffer equals String.intercalate of
the separator over the candidate texts, complete returns exactly those
bytes on a successful generation, and for candidates --flag and --verbose
with the default separator the output is exactly the two words joined by
one newline. -/
theorem c3_separator_join :
    (∀ (ifs : Option String) (cs : List String),
      encodeCandidates ifs cs = String.intercalate (ifs.getD "\n") cs) ∧
    (∀ (completer : Completer) (cwd : Option String) (args : CompleteArgs)
      (cs : List String), args.space ≠ args.no_space →
      completer args.comp_words (args.index.getD 0) cwd = .ok cs →
      complete completer cwd args
        = .ok (String.intercalate (args.ifs.getD "\n") cs)) ∧
    encodeCandidates none ["--flag", "--verbose"] = "--flag\n--verbose" := by
  refine ⟨encode_eq_intercalate, ?_, rfl⟩
  intro completer cwd args cs h hgen
  rw [complete_run_eq completer cwd args h, hgen]
  exact congrArg Outcome.ok (encode_eq_intercalate args.ifs cs)

/-- Witness for c3_separator_join on the spec's concrete candidates. -/
theorem c3_separator_join_witness :
    complete (fun _ _ _ => .ok ["--flag", "--verbose"]) none
      ⟨some 1, none, some .Normal, true, false, ["p"]⟩
      = .ok "--flag\n--verbose" := by
  have h := c3_separator_join.2.1 (fun _ _ _ => .ok ["--flag", "--verbose"]) none
    ⟨some 1, none, some .Normal, true, false, ["p"]⟩ ["--flag", "--verbose"]
    (by decide) rfl
  exact h.trans (by rfl)

/-- C4: contrary to the claim, a non-zero exit code can arise with no decode
failure and no collaborator failure: with neither space flag present and a
candidate generator that succeeds with zero candidates, bash::complete
panics (process exit code 101, not 0); on the single-flag path the same
empty result writes zero bytes and the process exits 0. -/
theorem c4_empty_output_exit :
    complete (fun _ _ _ => .ok []) none
        ⟨some 0, none, some .Normal, false, false, ["prog"]⟩ = .panicked ∧
    exitCode (complete (fun _ _ _ => .ok []) none
        ⟨some 0, none, some .Normal, false, false, ["prog"]⟩) = 101 ∧
    complete (fun _ _ _ => .ok []) none
        ⟨some 0, none, some .Normal, true, false, ["prog"]⟩ = .ok "" ∧
    exitCode (complete (fun _ _ _ => .ok []) none
        ⟨some 0, none, some .Normal, true, false, ["prog"]⟩) = 0 :=
  ⟨rfl, rfl, rfl, rfl⟩

/-- C5: CompType is exactly the five listed variants, without repetition,
bound to the numeric codes 9, 63, 33, 64 and 37 and to lowercase aliases;
decoding a variant's numeric code or alias and re-encoding returns that
same variant; any string outside the ten accepted spellings fails to
parse; and the default value is Normal. -/
theorem c5_comp_type_model :
    (∀ c : CompType, c ∈ CompType.valueVariants) ∧
    CompType.valueVariants.length = 5 ∧
    CompType.valueVariants.Nodup ∧
    (CompType.Normal.toValue = "9" ∧ CompType.Successive.toValue = "63" ∧
      CompType.Alternatives.toValue = "33" ∧ CompType.Unmodified.toValue = "64" ∧
      CompType.Menu.toValue = "37") ∧
    (∀ c : CompType, CompType.fromStr c.toValue = some c) ∧
    (∀ c : CompType, CompType.fromStr c.toAlias = some c) ∧
    (∀ s : String, CompType.fromStr s = none ∨
      s ∈ CompType.valueVariants.map CompType.toValue
        ++ CompType.valueVariants.map CompType.toAlias) ∧
    CompType.default = CompType.Normal := by
  refine ⟨?_, rfl, by decide, ⟨rfl, rfl, rfl, rfl, rfl⟩, ?_, ?_, ?_, rfl⟩
  · intro c; cases c <;> simp [CompType.valueVariants]
  · intro c; cases c <;> rfl
  · intro c; cases c <;> rfl
  · intro s
    by_cases h : s ∈ CompType.valueVariants.map CompType.toValue
        ++ CompType.valueVariants.map CompType.toAlias
    · exact Or.inr h
    · left
      rw [CompType.fromStr]
      apply List.find?_eq_none.mpr
      intro v hv hp
      rcases (by simpa using hp : v.toValue = s ∨ v.toAlias = s) with he | he
      · exact h (List.mem_append.mpr (Or.inl (List.mem_map.mpr ⟨v, hv, he⟩)))
      · exact h (List.mem_append.mpr (Or.inr (List.mem_map.mpr ⟨v, hv, he⟩)))

/-- C6 counterexample: installing program my-tool into an existing directory
yields the file my-tool.bash inside it, not my_tool.bash as the claim
renders the convention: file_name applies no hyphen replacement. -/
theorem c6_dir_install_counterexample :
    registerDest .Bash "my-tool" (some "/comp") (fun p => p == "/comp")
        = some (.file "/comp/my-tool.bash") ∧
    registerDest .Bash "my-tool" (some "/comp") (fun p => p == "/comp")
        ≠ some (.file "/comp/my_tool.bash") := by
  exact ⟨rfl, by decide⟩

/-- C6 amended: an omitted or "-" destination writes to standard output and
creates no file; an existing directory receives the dialect's conventional
file name, which is the program name verbatim (no hyphen replacement) plus
.bash or .zsh, joined inside the directory; any other path is written to
verbatim. -/
theorem c6_register_destination (shell : CompletionsShell) (name : String)
    (isDir : String → Bool) :
    registerDest shell name none isDir = some .stdout ∧
    registerDest shell name (some "-") isDir = some .stdout ∧
    (∀ p : String, p ≠ "-" → isDir p = true →
      registerDest shell name (some p) isDir
        = some (.file (p ++ "/" ++ (match shell with
            | .Bash => bash.file_name name
            | .Zsh => zsh.file_name name)))) ∧
    (∀ p : String, p ≠ "-" → isDir p = false →
      registerDest shell name (some p) isDir = some (.file p)) := by
  refine ⟨rfl, rfl, ?_, ?_⟩
  · intro p hp hdir
    have hne : (p == "-") = false := by simpa using hp
    cases shell <;> simp [registerDest, hne, hdir]
  · intro p hp hdir
    have hne : (p == "-") = false := by simpa using hp
    cases shell <;> simp [registerDest, hne, hdir]

/-- Witness for c6_register_destination on concrete paths. -/
theorem c6_register_destination_witness :
    registerDest .Bash "my-tool" (some "/comp") (fun p => p == "/comp")
      = some (.file ("/comp" ++ "/" ++ bash.file_name "my-tool")) ∧
    registerDest .Zsh "my-tool" (some "/other") (fun p => p == "/comp")
      = some (.file "/other") :=
  ⟨(c6_register_destination .Bash "my-tool" (fun p => p == "/comp")).2.2.1
      "/comp" (by decide) (by decide),
   (c6_register_destination .Zsh "my-tool" (fun p => p == "/comp")).2.2.2
      "/other" (by decide) (by decide)⟩

/-- C9: on every non-panicking request, bash::complete hands the candidate
generator exactly the decoded raw trailing word list, program name still
first, nothing trimmed, normalized, dropped or added, and its outcome is
exactly the serialization of the generator's answer on that list. -/
theorem c9_raw_words_verbatim (completer : Completer) (cwd : Option String)
    (args : CompleteArgs) (h : args.space ≠ args.no_space) :
    complete completer cwd args =
      match completer args.comp_words (args.index.getD 0) cwd with
      | .error _ => .failed
      | .ok cs => .ok (encodeCandidates args.ifs cs) :=
  complete_run_eq completer cwd args h

/-- Witness for c9_raw_words_verbatim: an echoing generator shows the words
arrive untouched, program name first. -/
theorem c9_raw_words_verbatim_witness :
    complete (fun w _ _ => .ok w) none
      ⟨some 2, none, some .Normal, false, true, ["prog", "-", "x"]⟩
      = .ok "prog\n-\nx" := by
  have h := c9_raw_words_verbatim (fun w _ _ => .ok w) none
    ⟨some 2, none, some .Normal, false, true, ["prog", "-", "x"]⟩ (by decide)
  exact h.trans (by rfl)

/-- C10: the bytes bash::complete writes are independent of the decoded
completion type and of which single space flag was set: two requests that
agree on index, ifs and comp_words, each carrying exactly one of the two
space flags, yield identical outcomes for the same candidate generator and
working directory. -/
theorem c10_output_independent (completer : Completer) (cwd : Option String)
    (a b : CompleteArgs) (hidx : a.index = b.index) (hifs : a.ifs = b.ifs)
    (hw : a.comp_words = b.comp_words) (ha : a.space ≠ a.no_space)
    (hb : b.space ≠ b.no_space) :
    complete completer cwd a = complete completer cwd b := by
  rw [complete_run_eq completer cwd a ha, complete_run_eq completer cwd b hb,
    hidx, hifs, hw]

/-- Witness for c10_output_independent: Menu with the space flag versus
Normal with the no-space flag, all else equal. -/
theorem c10_output_independent_witness :
    complete (fun w i _ => .ok (w ++ [toString i])) none
      ⟨some 1, some ",", some .Menu, true, false, ["p", "q"]⟩
      = complete (fun w i _ => .ok (w ++ [toString i])) none
      ⟨some 1, some ",", some .Normal, false, true, ["p", "q"]⟩ :=
  c10_output_independent _ none _ _ rfl rfl rfl (by decide) (by decide)

/-- Replacing every hyphen by an underscore leaves no hyphen behind, as long
as the fuel covers the input length. -/
theorem dash_not_mem_replaceGo :
    ∀ (fuel l : List Char), l.length ≤ fuel.length →
      ('-' ∈ replaceGo ['-'] ['_'] fuel l → False) := by
  intro fuel
  induction fuel with
  | nil =>
    intro l hl
    have hn : l = [] := List.eq_nil_of_length_eq_zero (Nat.le_zero.mp hl)
    subst hn
    simp [replaceGo]
  | cons f fs ih =>
    intro l hl
    cases l with
    | nil => simp [replaceGo]
    | cons c cs =>
      by_cases hc : ('-' : Char) = c
      · subst hc
        have hstrip : stripPre ['-'] ('-' :: cs) = some cs := by simp [stripPre]
        simp only [replaceGo, hstrip]
        intro hmem
        rcases List.mem_append.mp hmem with h1 | h1
        · simp at h1
        · exact ih cs (Nat.le_of_succ_le_succ hl) h1
      · have hstrip : stripPre ['-'] (c :: cs) = none := by simp [stripPre, hc]
        simp only [replaceGo, hstrip]
        intro hmem
        rcases List.mem_cons.mp hmem with h1 | h1
        · exact hc h1
        · exact ih cs (Nat.le_of_succ_le_succ hl) h1

/-- C7: generated function and variable names come from the sanitized
identifier.  For every program name the interpolated identifier is the name
with each hyphen replaced by an underscore, hence free of hyphens; and for
the spec's program name my-tool, with collaborator inputs free of the raw
name, both dialects' rendered scripts contain the my_tool-built function
identifiers and contain no occurrence of the substring my-tool anywhere,
in particular not inside any identifier. -/
theorem c7_sanitized_identifier :
    (∀ name : String,
      ((replaceStr name "-" "_").toList.all (fun c => c != '-')) = true) ∧
    strHasSub (bash.register (fun s => s) "my-tool" ["exe"] "comp" .Readline)
      "_clap_complete_my_tool" = true ∧
    strHasSub (bash.register (fun s => s) "my-tool" ["exe"] "comp" .Readline)
      "__clap_complete_my_tool_debug" = true ∧
    strHasSub (bash.register (fun s => s) "my-tool" ["exe"] "comp" .Readline)
      "my-tool" = false ∧
    strHasSub (zsh.register (fun s => s) "my-tool" ["exe"] "comp")
      "_clap_complete_my_tool" = true ∧
    strHasSub (zsh.register (fun s => s) "my-tool" ["exe"] "comp")
      "my-tool" = false := by
  refine ⟨?_, by decide, by decide, by decide, by decide, by decide⟩
  intro name
  apply List.all_eq_true.mpr
  intro c hcmem
  have hne : c ≠ '-' := by
    intro he
    subst he
    exact dash_not_mem_replaceGo name.toList name.toList
      (Nat.le_refl _) hcmem
  simpa using hne

end ClapDynamic
